import Mathlib

/-!
# Verification of the Autonomous Debugger fix-validate pipeline

A shallow embedding of `src/agent.py` (the single-file C-repair agent) and
proofs about its behaviour.  Strings are modelled as `List Char`; each
external subprocess invocation is modelled by passing its observable result
(presence of the executable, exit code, captured stderr/stdout, duration)
as explicit parameters.

The code extractor (`extract_fixed_code`) uses Python `re.search` with
`re.DOTALL` on the three patterns
`\x60\x60\x60c\n(.*?)\x60\x60\x60`, `\x60\x60\x60\n(.*?)\x60\x60\x60`,
`\x60\x60\x60(.*?)\x60\x60\x60`.
For each of these patterns, `re.search` semantics are: find the leftmost
occurrence of the literal opening delimiter, then the lazy group extends to
the first following occurrence of the closing delimiter.  (Backtracking to
a later opening occurrence never yields a match when the first one fails,
because every later occurrence of an opening delimiter itself contains the
closing delimiter as a prefix.)  `matchFence` below implements exactly this:
first occurrence of the opener via `splitOnce`, then first occurrence of
the closer in the remainder.
-/

set_option autoImplicit false
set_option linter.unusedVariables false

namespace AutonomousDebugger

/-- The backtick character, which delimits fenced code blocks. -/
def bt : Char := Char.ofNat 96

/-- Python `str.strip()` whitespace (ASCII): space, tab, newline, carriage
return, vertical tab, form feed. -/
def isPySpace (c : Char) : Bool :=
  c = ' ' || c = '\t' || c = '\n' || c = '\r' || c = Char.ofNat 11 || c = Char.ofNat 12

/-- Python `str.strip()`: remove whitespace from both ends. -/
def trimws (s : List Char) : List Char :=
  ((s.dropWhile isPySpace).reverse.dropWhile isPySpace).reverse

/-- `startsWith pat s` holds when `pat` is a prefix of `s`. -/
def startsWith : List Char → List Char → Bool
  | [], _ => true
  | _ :: _, [] => false
  | p :: ps, c :: cs => if p = c then startsWith ps cs else false

/-- Split `s` at the first occurrence of `pat`: returns the part strictly
before the occurrence and the part strictly after it.  `none` when `pat`
does not occur in `s`. -/
def splitOnce (pat : List Char) : List Char → Option (List Char × List Char)
  | [] => if startsWith pat [] then some ([], []) else none
  | c :: rest =>
    if startsWith pat (c :: rest) then some ([], List.drop pat.length (c :: rest))
    else (splitOnce pat rest).map (fun pr => (c :: pr.1, pr.2))

/-- Closing delimiter of a fenced block: three backticks. -/
def closeFence : List Char := [bt, bt, bt]

/-- Opening delimiter of the first regex pattern: three backticks, `c`, newline. -/
def taggedOpenPat : List Char := [bt, bt, bt, 'c', '\n']

/-- Opening delimiter of the second regex pattern: three backticks, newline. -/
def untaggedOpenPat : List Char := [bt, bt, bt, '\n']

/-- Opening delimiter of the third (catch-all) regex pattern: three backticks. -/
def anyOpenPat : List Char := [bt, bt, bt]

/-- The fixed pattern priority list of `extract_fixed_code`. -/
def patterns : List (List Char) := [taggedOpenPat, untaggedOpenPat, anyOpenPat]

/-- `re.search(open + "(.*?)" + close, s, re.DOTALL)`: the lazy group of the
leftmost match, i.e. the text between the first occurrence of the opener and
the first occurrence of the closer after it. -/
def matchFence (openPat : List Char) (s : List Char) : Option (List Char) :=
  match splitOnce openPat s with
  | none => none
  | some (_, rest) =>
    match splitOnce closeFence rest with
    | none => none
    | some (content, _) => some content

/-- The pattern loop of `extract_fixed_code`: for each pattern in order,
on a match whose stripped group is non-empty return that stripped group,
otherwise fall through to the next pattern. -/
def tryPatterns : List (List Char) → List Char → Option (List Char)
  | [], _ => none
  | p :: ps, s =>
    match matchFence p s with
    | some content =>
      if trimws content = [] then tryPatterns ps s else some (trimws content)
    | none => tryPatterns ps s

/-- `extract_fixed_code(response)`: `some code` on success, `none` models the
fatal `exit(1)` path taken when no pattern yields non-whitespace content. -/
def extract_fixed_code (response : List Char) : Option (List Char) :=
  tryPatterns patterns response

/-- Observable result of a blocking subprocess call that may carry a timeout:
either the timeout fired, or the process finished with an exit code and its
captured output channels. -/
inductive ProcResult where
  | timedOut
  | done (exitCode : Int) (out err : List Char)
deriving DecidableEq

/-- Semantics of `subprocess.run` with an optional `timeout` argument:
with `timeout=limit` a call whose duration exceeds the limit raises
`TimeoutExpired`; with no timeout argument the call blocks until done. -/
def runWithTimeout (timeoutSec : Option Nat) (durationSec : Nat)
    (exitCode : Int) (out err : List Char) : ProcResult :=
  match timeoutSec with
  | some limit => if limit < durationSec then .timedOut else .done exitCode out err
  | none => .done exitCode out err

/-- The `timeout` argument passed to `subprocess.run(["ollama", "run",
"mistral"], ...)` in `send_to_mistral`: the source passes none. -/
def ollamaRunTimeout : Option Nat := none

/-- `send_to_mistral`: health-probe `ollama --version` (failure exits 1),
then one blocking `ollama run mistral` call; a `TimeoutExpired` or a
non-zero exit code exits 1, otherwise the captured stdout is returned.
`Except.error n` models `exit(n)`. -/
def send_to_mistral (ollamaAvailable : Bool) (durationSec : Nat)
    (exitCode : Int) (out err : List Char) : Except Nat (List Char) :=
  if !ollamaAvailable then .error 1
  else
    match runWithTimeout ollamaRunTimeout durationSec exitCode out err with
    | .timedOut => .error 1
    | .done e o _ => if e ≠ 0 then .error 1 else .ok o

/-- `run_cppcheck`: `subprocess.run(["cppcheck", "--enable=all", "--quiet",
path], check=True)`.  A non-zero exit raises `CalledProcessError`, which is
caught and its captured stderr returned, so the stderr text is returned
whatever the exit code; only a missing executable (`FileNotFoundError`)
exits 1. -/
def run_cppcheck (toolPresent : Bool) (exitCode : Int) (stderrText : List Char) :
    Except Nat (List Char) :=
  if toolPresent then .ok stderrText else .error 1

/-- `run_gcc_syntax_check`: `subprocess.run(["gcc", "-fsyntax-only", path],
check=True)` with the same structure as `run_cppcheck`. -/
def run_gcc_syntax_check (toolPresent : Bool) (exitCode : Int) (stderrText : List Char) :
    Except Nat (List Char) :=
  if toolPresent then .ok stderrText else .error 1

/-- Three-way classification of a validation run, as observed in
`compile_and_run_tests` through its distinct printed diagnostics
("Compilation failed" + compiler stderr / "Tests failed" + run stderr /
"All tests passed") and its boolean return value. -/
inductive ValidationResult where
  | CompileFailed (diag : List Char)
  | TestsFailed (diag : List Char)
  | TestsPassed
deriving DecidableEq

/-- `compile_and_run_tests`: compile test + fix together; non-zero compiler
exit reports the compiler's stderr and stops, otherwise the binary is run
and its exit code decides pass/fail. -/
def compile_and_run_tests (compileExit : Int) (compileStderr : List Char)
    (runExit : Int) (runStderr : List Char) : ValidationResult :=
  if compileExit ≠ 0 then .CompileFailed compileStderr
  else if runExit = 0 then .TestsPassed
  else .TestsFailed runStderr

/-- The boolean value `compile_and_run_tests` returns to `main`:
`True` exactly on `TestsPassed`. -/
def testsOk : ValidationResult → Bool
  | .TestsPassed => true
  | _ => false

/-- The successive `f.write(...)` payloads of `generate_test_file`. -/
def generate_test_file_writes : List (List Char) :=
  [ "#include <assert.h>\n".toList,
    "// Include only specific functions, not the entire file\n".toList,
    "int add(int a, int b); // Forward declaration\n\n".toList,
    "int test_main() \x7b\n".toList,
    "    assert(add(2, 3) == 5);\n".toList,
    "    assert(add(-1, 1) == 0);\n".toList,
    "    return 0;\n".toList,
    "\x7d\n\n".toList,
    "int main() \x7b return test_main(); \x7d".toList ]

/-- The bytes `generate_test_file` writes to `tests/test_sample.c`:
the concatenation of its `f.write` calls.  It takes no parameters. -/
def generate_test_file : List Char :=
  generate_test_file_writes.flatten

/-- The final report printed by `main` on a completed run. -/
structure Summary where
  analysisIssues : Bool
  fixGenerated : Bool
  testsPassed : Bool
deriving DecidableEq

/-- Observable outcome of one process run of `main`: the process exit
status, whether the `ollama run` repair request was issued, whether
validation (test generation + compile/run) was reached, and the final
report if one was printed. -/
structure RunTrace where
  exitCode : Nat
  requestSent : Bool
  validationAttempted : Bool
  summary : Option Summary
deriving DecidableEq

/-- The environment of one run: observable behaviour of the filesystem and
of every external process the pipeline invokes. -/
structure Env where
  fileExists : Bool
  fileContent : List Char
  cppcheckPresent : Bool
  cppcheckExit : Int
  cppcheckStderr : List Char
  gccPresent : Bool
  gccExit : Int
  gccStderr : List Char
  ollamaAvailable : Bool
  ollamaDuration : Nat
  ollamaExit : Int
  ollamaStdout : List Char
  ollamaStderr : List Char
  compileExit : Int
  compileStderr : List Char
  runExit : Int
  runStderr : List Char
deriving DecidableEq

/-- The `main` orchestrator: read_code (existence and non-emptiness checks),
cppcheck, gcc syntax check, send_to_mistral, extract_fixed_code,
write_fixed_code, generate_test_file, compile_and_run_tests, final report.
Reaching the end of `main` exits the process with status 0. -/
def mainRun (env : Env) : RunTrace :=
  if !env.fileExists then ⟨1, false, false, none⟩
  else if trimws env.fileContent = [] then ⟨1, false, false, none⟩
  else
    match run_cppcheck env.cppcheckPresent env.cppcheckExit env.cppcheckStderr with
    | .error e => ⟨e, false, false, none⟩
    | .ok cpp =>
      match run_gcc_syntax_check env.gccPresent env.gccExit env.gccStderr with
      | .error e => ⟨e, false, false, none⟩
      | .ok gcc =>
        match send_to_mistral env.ollamaAvailable env.ollamaDuration
            env.ollamaExit env.ollamaStdout env.ollamaStderr with
        | .error e => ⟨e, env.ollamaAvailable, false, none⟩
        | .ok resp =>
          match extract_fixed_code resp with
          | none => ⟨1, true, false, none⟩
          | some _fixedCode =>
            let vr := compile_and_run_tests env.compileExit env.compileStderr
              env.runExit env.runStderr
            ⟨0, true, true,
              some ⟨!cpp.isEmpty || !gcc.isEmpty, true, testsOk vr⟩⟩

/-- The fatal conditions: missing or empty input file, missing cppcheck or
gcc, ollama unreachable, non-zero ollama exit, or extraction failure.
These are exactly the `exit(1)` paths of the pipeline. -/
def fatalCond (env : Env) : Prop :=
  env.fileExists = false ∨ trimws env.fileContent = [] ∨
  env.cppcheckPresent = false ∨ env.gccPresent = false ∨
  env.ollamaAvailable = false ∨ env.ollamaExit ≠ 0 ∨
  extract_fixed_code env.ollamaStdout = none

instance (env : Env) : Decidable (fatalCond env) := by
  unfold fatalCond
  infer_instance

/-! ## Lemmas about `startsWith` and `splitOnce` -/

theorem startsWith_cons_eq (p : Char) (ps cs : List Char) :
    startsWith (p :: ps) (p :: cs) = startsWith ps cs := by
  simp [startsWith]

theorem startsWith_cons_ne {p c : Char} (ps cs : List Char) (h : p ≠ c) :
    startsWith (p :: ps) (c :: cs) = false := by
  simp [startsWith, h]

theorem startsWith_append_self (p r : List Char) : startsWith p (p ++ r) = true := by
  induction p with
  | nil => simp [startsWith]
  | cons x xs ih => simpa [startsWith] using ih

theorem splitOnce_pos {pat s : List Char} (h : startsWith pat s = true) :
    splitOnce pat s = some ([], List.drop pat.length s) := by
  rcases s with _ | ⟨c, cs⟩
  · rcases pat with _ | ⟨p, ps⟩
    · simp [splitOnce, startsWith]
    · simp [startsWith] at h
  · simp [splitOnce, h]

theorem splitOnce_neg_cons {pat : List Char} {c : Char} {cs : List Char}
    (h : startsWith pat (c :: cs) = false) :
    splitOnce pat (c :: cs) = (splitOnce pat cs).map (fun pr => (c :: pr.1, pr.2)) := by
  simp [splitOnce, h]

theorem splitOnce_self {p : Char} {ps : List Char} (r : List Char) :
    splitOnce (p :: ps) ((p :: ps) ++ r) = some ([], r) := by
  rw [splitOnce_pos (startsWith_append_self (p :: ps) r)]
  simp

/-- Scanning for a pattern that starts with `h0` skips any leading segment
free of `h0`. -/
theorem splitOnce_skip {pat : List Char} {h0 : Char} (hh : pat.head? = some h0)
    (a t : List Char) (ha : h0 ∉ a) :
    splitOnce pat (a ++ t) = (splitOnce pat t).map (fun pr => (a ++ pr.1, pr.2)) := by
  induction a with
  | nil =>
    rcases h : splitOnce pat t with _ | ⟨pre, post⟩ <;> simp [h]
  | cons x xs ih =>
    rcases pat with _ | ⟨p, ps⟩
    · simp at hh
    · have hp : p = h0 := by simpa using hh
      have hx : p ≠ x := by
        rw [hp]; exact fun e => ha (e ▸ List.mem_cons_self x xs)
      have hsw : startsWith (p :: ps) (x :: (xs ++ t)) = false :=
        startsWith_cons_ne _ _ hx
      rw [List.cons_append, splitOnce_neg_cons hsw,
        ih (fun hm => ha (List.mem_cons_of_mem _ hm))]
      rcases h : splitOnce (p :: ps) t with _ | ⟨pre, post⟩ <;> simp [h]

theorem taggedOpenPat_head : taggedOpenPat.head? = some bt := rfl

theorem untaggedOpenPat_head : untaggedOpenPat.head? = some bt := rfl

theorem closeFence_head : closeFence.head? = some bt := rfl

theorem splitOnce_self_tagged (r : List Char) :
    splitOnce taggedOpenPat (taggedOpenPat ++ r) = some ([], r) :=
  splitOnce_self r

theorem splitOnce_self_close (r : List Char) :
    splitOnce closeFence (closeFence ++ r) = some ([], r) :=
  splitOnce_self r

/-- Scanning for the closing delimiter in `b ++ close ++ c` with `b`
backtick-free finds it right after `b`. -/
theorem splitOnce_close_direct (b c : List Char) (hb : bt ∉ b) :
    splitOnce closeFence (b ++ (closeFence ++ c)) = some (b, c) := by
  rw [splitOnce_skip closeFence_head b _ hb, splitOnce_self_close c]
  simp

/-- Scanning for the tagged opener in `a ++ tagged ++ r` with `a`
backtick-free finds it right after `a`. -/
theorem splitOnce_tagged_direct (a r : List Char) (ha : bt ∉ a) :
    splitOnce taggedOpenPat (a ++ (taggedOpenPat ++ r)) = some (a, r) := by
  rw [splitOnce_skip taggedOpenPat_head a _ ha, splitOnce_self_tagged r]
  simp

/-- The first regex pattern extracts exactly the tagged block's contents
from a response of the shape `prose ++ tagged-open ++ code ++ close ++ rest`
when prose and code are backtick-free. -/
theorem matchFence_tagged_direct (a b c : List Char) (ha : bt ∉ a) (hb : bt ∉ b) :
    matchFence taggedOpenPat (a ++ (taggedOpenPat ++ (b ++ (closeFence ++ c)))) =
      some b := by
  have h1 := splitOnce_tagged_direct a (b ++ (closeFence ++ c)) ha
  have h2 := splitOnce_close_direct b c hb
  simp [matchFence, h1, h2]

/-- The tagged opener never matches inside an untagged opener, so the scan
steps over it. -/
theorem splitOnce_tagged_skip_untaggedOpen (r : List Char) :
    splitOnce taggedOpenPat (untaggedOpenPat ++ r) =
      (splitOnce taggedOpenPat r).map (fun pr => (untaggedOpenPat ++ pr.1, pr.2)) := by
  have sw0 : startsWith taggedOpenPat (bt :: bt :: bt :: '\n' :: r) = false := by
    simp [taggedOpenPat, startsWith, bt]
  have sw1 : startsWith taggedOpenPat (bt :: bt :: '\n' :: r) = false := by
    simp [taggedOpenPat, startsWith, bt]
  have sw2 : startsWith taggedOpenPat (bt :: '\n' :: r) = false := by
    simp [taggedOpenPat, startsWith, bt]
  have sw3 : startsWith taggedOpenPat ('\n' :: r) = false := by
    simp [taggedOpenPat, startsWith, bt]
  show splitOnce taggedOpenPat (bt :: bt :: bt :: '\n' :: r) = _
  rw [splitOnce_neg_cons sw0, splitOnce_neg_cons sw1, splitOnce_neg_cons sw2,
    splitOnce_neg_cons sw3]
  rcases h : splitOnce taggedOpenPat r with _ | ⟨pre, post⟩ <;>
    simp [h, untaggedOpenPat]

/-- Scanning for the tagged opener over `close ++ m ++ tagged ++ t` (the
closer of an earlier block, then backtick-free text not starting with `c`)
finds the tagged opener. -/
theorem splitOnce_tagged_close_seg (m t : List Char) (hm : bt ∉ m)
    (hmc : m.head? ≠ some 'c') :
    splitOnce taggedOpenPat (closeFence ++ (m ++ (taggedOpenPat ++ t))) =
      some (closeFence ++ m, t) := by
  rcases m with _ | ⟨m0, m'⟩
  · have sw0 : startsWith taggedOpenPat
        (bt :: bt :: bt :: bt :: bt :: bt :: 'c' :: '\n' :: t) = false := by
      simp [taggedOpenPat, startsWith, bt]
    have sw1 : startsWith taggedOpenPat
        (bt :: bt :: bt :: bt :: bt :: 'c' :: '\n' :: t) = false := by
      simp [taggedOpenPat, startsWith, bt]
    have sw2 : startsWith taggedOpenPat
        (bt :: bt :: bt :: bt :: 'c' :: '\n' :: t) = false := by
      simp [taggedOpenPat, startsWith, bt]
    show splitOnce taggedOpenPat
        (bt :: bt :: bt :: bt :: bt :: bt :: 'c' :: '\n' :: t) = _
    rw [splitOnce_neg_cons sw0, splitOnce_neg_cons sw1, splitOnce_neg_cons sw2]
    have hself : splitOnce taggedOpenPat (bt :: bt :: bt :: 'c' :: '\n' :: t) =
        some ([], t) := splitOnce_self_tagged t
    rw [hself]
    simp [closeFence]
  · have hm0b : bt ≠ m0 := fun e => hm (e ▸ List.mem_cons_self m0 m')
    have hm0c : ('c' : Char) ≠ m0 := by
      intro e
      exact hmc (by simp [← e])
    have sw0 : startsWith taggedOpenPat
        (bt :: bt :: bt :: m0 :: (m' ++ (taggedOpenPat ++ t))) = false := by
      have h1 : startsWith taggedOpenPat
          (bt :: bt :: bt :: m0 :: (m' ++ (taggedOpenPat ++ t))) =
          startsWith ['c', '\n'] (m0 :: (m' ++ (taggedOpenPat ++ t))) := by
        simp [taggedOpenPat, startsWith, bt]
      rw [h1, startsWith_cons_ne _ _ hm0c]
    have sw1 : startsWith taggedOpenPat
        (bt :: bt :: m0 :: (m' ++ (taggedOpenPat ++ t))) = false := by
      have h1 : startsWith taggedOpenPat
          (bt :: bt :: m0 :: (m' ++ (taggedOpenPat ++ t))) =
          startsWith [bt, 'c', '\n'] (m0 :: (m' ++ (taggedOpenPat ++ t))) := by
        simp [taggedOpenPat, startsWith, bt]
      rw [h1, startsWith_cons_ne _ _ hm0b]
    have sw2 : startsWith taggedOpenPat
        (bt :: m0 :: (m' ++ (taggedOpenPat ++ t))) = false := by
      have h1 : startsWith taggedOpenPat
          (bt :: m0 :: (m' ++ (taggedOpenPat ++ t))) =
          startsWith [bt, bt, 'c', '\n'] (m0 :: (m' ++ (taggedOpenPat ++ t))) := by
        simp [taggedOpenPat, startsWith, bt]
      rw [h1, startsWith_cons_ne _ _ hm0b]
    show splitOnce taggedOpenPat
        (bt :: bt :: bt :: ((m0 :: m') ++ (taggedOpenPat ++ t))) = _
    rw [show ((m0 :: m') ++ (taggedOpenPat ++ t)) =
      m0 :: (m' ++ (taggedOpenPat ++ t)) from rfl]
    rw [splitOnce_neg_cons sw0, splitOnce_neg_cons sw1, splitOnce_neg_cons sw2]
    have hskip : splitOnce taggedOpenPat (m0 :: (m' ++ (taggedOpenPat ++ t))) =
        some (m0 :: m', t) := by
      rw [show m0 :: (m' ++ (taggedOpenPat ++ t)) =
        (m0 :: m') ++ (taggedOpenPat ++ t) from rfl]
      rw [splitOnce_skip taggedOpenPat_head (m0 :: m') _ hm, splitOnce_self_tagged t]
      simp
    rw [hskip]
    simp [closeFence]

/-- The tagged block is found even when an untagged block precedes it:
pattern-1 extraction on
`prose ++ untagged-open ++ u ++ close ++ m ++ tagged-open ++ b ++ close ++ c`
returns the tagged block's contents `b`. -/
theorem matchFence_tagged_after_untagged (a u m b c : List Char)
    (ha : bt ∉ a) (hu : bt ∉ u) (hm : bt ∉ m) (hmc : m.head? ≠ some 'c')
    (hb : bt ∉ b) :
    matchFence taggedOpenPat
      (a ++ (untaggedOpenPat ++ (u ++ (closeFence ++
        (m ++ (taggedOpenPat ++ (b ++ (closeFence ++ c)))))))) = some b := by
  have hB := splitOnce_tagged_close_seg m (b ++ (closeFence ++ c)) hm hmc
  have hU : splitOnce taggedOpenPat
      (u ++ (closeFence ++ (m ++ (taggedOpenPat ++ (b ++ (closeFence ++ c)))))) =
      some (u ++ (closeFence ++ m), b ++ (closeFence ++ c)) := by
    rw [splitOnce_skip taggedOpenPat_head u _ hu, hB]
    simp
  have hUO : splitOnce taggedOpenPat
      (untaggedOpenPat ++ (u ++ (closeFence ++
        (m ++ (taggedOpenPat ++ (b ++ (closeFence ++ c))))))) =
      some (untaggedOpenPat ++ (u ++ (closeFence ++ m)), b ++ (closeFence ++ c)) := by
    rw [splitOnce_tagged_skip_untaggedOpen, hU]
    simp
  have hA : splitOnce taggedOpenPat
      (a ++ (untaggedOpenPat ++ (u ++ (closeFence ++
        (m ++ (taggedOpenPat ++ (b ++ (closeFence ++ c)))))))) =
      some (a ++ (untaggedOpenPat ++ (u ++ (closeFence ++ m))),
        b ++ (closeFence ++ c)) := by
    rw [splitOnce_skip taggedOpenPat_head a _ ha, hUO]
    simp
  have hclose := splitOnce_close_direct b c hb
  simp [matchFence, hA, hclose]

theorem anyOpenPat_head : anyOpenPat.head? = some bt := rfl

theorem splitOnce_any_close (r : List Char) :
    splitOnce anyOpenPat (closeFence ++ r) = some ([], r) :=
  splitOnce_self r

/-- When the first match of a pattern yields non-whitespace content, the
extractor returns it (pattern 1 has top priority). -/
theorem extract_of_tagged_match {s b : List Char}
    (h : matchFence taggedOpenPat s = some b) (htr : trimws b ≠ []) :
    extract_fixed_code s = some (trimws b) := by
  simp [extract_fixed_code, patterns, tryPatterns, h, htr]

/-- The tagged pattern finds nothing in `close ++ w ++ close` when `w` is
backtick-free and `c\n` does not follow the first fence. -/
theorem splitOnce_tagged_fail (w0 : Char) (w' : List Char) (hw : bt ∉ w0 :: w')
    (hno : startsWith ['c', '\n'] ((w0 :: w') ++ closeFence) = false) :
    splitOnce taggedOpenPat (closeFence ++ ((w0 :: w') ++ closeFence)) = none := by
  have hw0b : bt ≠ w0 := fun e => hw (e ▸ List.mem_cons_self w0 w')
  have sw0 : startsWith taggedOpenPat
      (bt :: bt :: bt :: ((w0 :: w') ++ closeFence)) = false := by
    have h1 : startsWith taggedOpenPat
        (bt :: bt :: bt :: ((w0 :: w') ++ closeFence)) =
        startsWith ['c', '\n'] ((w0 :: w') ++ closeFence) := by
      simp [taggedOpenPat, startsWith, bt]
    rw [h1, hno]
  have sw1 : startsWith taggedOpenPat
      (bt :: bt :: ((w0 :: w') ++ closeFence)) = false := by
    have h1 : startsWith taggedOpenPat
        (bt :: bt :: ((w0 :: w') ++ closeFence)) =
        startsWith [bt, 'c', '\n'] (w0 :: (w' ++ closeFence)) := by
      simp [taggedOpenPat, startsWith, bt]
    rw [h1, startsWith_cons_ne _ _ hw0b]
  have sw2 : startsWith taggedOpenPat
      (bt :: ((w0 :: w') ++ closeFence)) = false := by
    have h1 : startsWith taggedOpenPat
        (bt :: ((w0 :: w') ++ closeFence)) =
        startsWith [bt, bt, 'c', '\n'] (w0 :: (w' ++ closeFence)) := by
      simp [taggedOpenPat, startsWith, bt]
    rw [h1, startsWith_cons_ne _ _ hw0b]
  have hrest : splitOnce taggedOpenPat ((w0 :: w') ++ closeFence) = none := by
    rw [splitOnce_skip taggedOpenPat_head (w0 :: w') closeFence hw]
    have : splitOnce taggedOpenPat closeFence = none := by decide
    rw [this]
    rfl
  show splitOnce taggedOpenPat (bt :: bt :: bt :: ((w0 :: w') ++ closeFence)) = none
  rw [splitOnce_neg_cons sw0, splitOnce_neg_cons sw1, splitOnce_neg_cons sw2, hrest]
  rfl

/-- The untagged pattern finds nothing in `close ++ w ++ close` when `w` is
backtick-free and does not start with a newline. -/
theorem splitOnce_untagged_fail (w0 : Char) (w' : List Char) (hw : bt ∉ w0 :: w')
    (hw0n : w0 ≠ '\n') :
    splitOnce untaggedOpenPat (closeFence ++ ((w0 :: w') ++ closeFence)) = none := by
  have hw0b : bt ≠ w0 := fun e => hw (e ▸ List.mem_cons_self w0 w')
  have hn0 : ('\n' : Char) ≠ w0 := fun e => hw0n e.symm
  have sw0 : startsWith untaggedOpenPat
      (bt :: bt :: bt :: ((w0 :: w') ++ closeFence)) = false := by
    have h1 : startsWith untaggedOpenPat
        (bt :: bt :: bt :: ((w0 :: w') ++ closeFence)) =
        startsWith ['\n'] (w0 :: (w' ++ closeFence)) := by
      simp [untaggedOpenPat, startsWith, bt]
    rw [h1, startsWith_cons_ne _ _ hn0]
  have sw1 : startsWith untaggedOpenPat
      (bt :: bt :: ((w0 :: w') ++ closeFence)) = false := by
    have h1 : startsWith untaggedOpenPat
        (bt :: bt :: ((w0 :: w') ++ closeFence)) =
        startsWith [bt, '\n'] (w0 :: (w' ++ closeFence)) := by
      simp [untaggedOpenPat, startsWith, bt]
    rw [h1, startsWith_cons_ne _ _ hw0b]
  have sw2 : startsWith untaggedOpenPat
      (bt :: ((w0 :: w') ++ closeFence)) = false := by
    have h1 : startsWith untaggedOpenPat
        (bt :: ((w0 :: w') ++ closeFence)) =
        startsWith [bt, bt, '\n'] (w0 :: (w' ++ closeFence)) := by
      simp [untaggedOpenPat, startsWith, bt]
    rw [h1, startsWith_cons_ne _ _ hw0b]
  have hrest : splitOnce untaggedOpenPat ((w0 :: w') ++ closeFence) = none := by
    rw [splitOnce_skip untaggedOpenPat_head (w0 :: w') closeFence hw]
    have : splitOnce untaggedOpenPat closeFence = none := by decide
    rw [this]
    rfl
  show splitOnce untaggedOpenPat (bt :: bt :: bt :: ((w0 :: w') ++ closeFence)) = none
  rw [splitOnce_neg_cons sw0, splitOnce_neg_cons sw1, splitOnce_neg_cons sw2, hrest]
  rfl

/-- The catch-all pattern on `prose ++ close ++ w ++ close` captures all of
`w`, the language tag included. -/
theorem matchFence_any_whole (a w : List Char) (ha : bt ∉ a) (hw : bt ∉ w) :
    matchFence anyOpenPat (a ++ (closeFence ++ (w ++ closeFence))) = some w := by
  have hopen : splitOnce anyOpenPat (a ++ (closeFence ++ (w ++ closeFence))) =
      some (a, w ++ closeFence) := by
    rw [splitOnce_skip anyOpenPat_head a _ ha, splitOnce_any_close (w ++ closeFence)]
    simp
  have hcc : splitOnce closeFence closeFence = some ([], []) := by decide
  have hclose : splitOnce closeFence (w ++ closeFence) = some (w, []) := by
    rw [splitOnce_skip closeFence_head w closeFence hw, hcc]
    simp
  simp [matchFence, hopen, hclose]

/-- General form of the implicit catch-all behaviour: a response whose only
fenced block carries an unrecognised tag (`w` is the whole region between
the fences, tag line included; it is backtick-free, does not start with a
newline, and `c\n` does not immediately follow the opening fence) is
extracted by the third pattern, whole. -/
theorem extract_other_tag (a w : List Char) (ha : bt ∉ a) (hw : bt ∉ w)
    (hne : w ≠ []) (hw0n : w.head? ≠ some '\n')
    (hno : startsWith ['c', '\n'] (w ++ closeFence) = false)
    (htr : trimws w ≠ []) :
    extract_fixed_code (a ++ (closeFence ++ (w ++ closeFence))) = some (trimws w) := by
  rcases w with _ | ⟨w0, w'⟩
  · exact absurd rfl hne
  · have hw0n' : w0 ≠ '\n' := by
      intro e
      exact hw0n (by simp [e])
    have h1 : matchFence taggedOpenPat
        (a ++ (closeFence ++ ((w0 :: w') ++ closeFence))) = none := by
      unfold matchFence
      rw [splitOnce_skip taggedOpenPat_head a _ ha, splitOnce_tagged_fail w0 w' hw hno]
      rfl
    have h2 : matchFence untaggedOpenPat
        (a ++ (closeFence ++ ((w0 :: w') ++ closeFence))) = none := by
      unfold matchFence
      rw [splitOnce_skip untaggedOpenPat_head a _ ha,
        splitOnce_untagged_fail w0 w' hw hw0n']
      rfl
    have h3 := matchFence_any_whole a (w0 :: w') ha hw
    simp only [List.cons_append] at h1 h2 h3 htr ⊢
    simp [extract_fixed_code, patterns, tryPatterns, h1, h2, h3, htr]

/-- The extractor fails exactly when no pattern's match has non-whitespace
content. -/
theorem tryPatterns_eq_none_iff (ps : List (List Char)) (s : List Char) :
    tryPatterns ps s = none ↔
      ∀ p ∈ ps, ∀ c, matchFence p s = some c → trimws c = [] := by
  induction ps with
  | nil => simp [tryPatterns]
  | cons p ps ih =>
    rcases h : matchFence p s with _ | c
    · simp only [tryPatterns, h, ih]
      constructor
      · intro hall
        intro q hq c hc
        rcases List.mem_cons.mp hq with rfl | hq'
        · rw [h] at hc; cases hc
        · exact hall q hq' c hc
      · intro hall q hq c hc
        exact hall q (List.mem_cons_of_mem _ hq) c hc
    · by_cases htr : trimws c = []
      · simp only [tryPatterns, h, htr, if_pos, ih]
        constructor
        · intro hall q hq d hd
          rcases List.mem_cons.mp hq with rfl | hq'
          · rw [h] at hd
            cases hd
            exact htr
          · exact hall q hq' d hd
        · intro hall q hq d hd
          exact hall q (List.mem_cons_of_mem _ hq) d hd
      · constructor
        · intro habs
          rw [tryPatterns] at habs
          simp [h, htr] at habs
        · intro hall
          exact absurd (hall p (List.mem_cons_self p ps) c h) htr

/-- A successful extraction is never the empty string: the pattern loop only
returns stripped content it has checked to be non-empty. -/
theorem tryPatterns_some_ne_nil (ps : List (List Char)) (s code : List Char)
    (h : tryPatterns ps s = some code) : code ≠ [] := by
  induction ps with
  | nil => simp [tryPatterns] at h
  | cons p ps ih =>
    rw [tryPatterns] at h
    split at h
    · split at h
      · exact ih h
      · rename_i htr
        injection h with h'
        exact h' ▸ htr
    · exact ih h

/-- On a run with no fatal condition, `main` reaches the final report and
the process exits 0, whatever the validation outcome. -/
theorem mainRun_success (env : Env) (h : ¬ fatalCond env) :
    mainRun env = ⟨0, true, true,
      some ⟨!env.cppcheckStderr.isEmpty || !env.gccStderr.isEmpty, true,
        testsOk (compile_and_run_tests env.compileExit env.compileStderr
          env.runExit env.runStderr)⟩⟩ := by
  unfold fatalCond at h
  push_neg at h
  obtain ⟨h1, h2, h3, h4, h5, h6, h7⟩ := h
  have h1' : env.fileExists = true := by
    revert h1; cases env.fileExists <;> simp
  have h3' : env.cppcheckPresent = true := by
    revert h3; cases env.cppcheckPresent <;> simp
  have h4' : env.gccPresent = true := by
    revert h4; cases env.gccPresent <;> simp
  have h5' : env.ollamaAvailable = true := by
    revert h5; cases env.ollamaAvailable <;> simp
  rcases hx : extract_fixed_code env.ollamaStdout with _ | code
  · exact absurd hx h7
  simp [mainRun, h1', h2, h3', h4', h5', run_cppcheck, run_gcc_syntax_check,
    send_to_mistral, runWithTimeout, ollamaRunTimeout, h6, hx]

/-- On any fatal condition, the process exits 1, validation is never
attempted, and no final report is printed. -/
theorem mainRun_fatal (env : Env) (h : fatalCond env) :
    (mainRun env).exitCode = 1 ∧ (mainRun env).validationAttempted = false ∧
      (mainRun env).summary = none := by
  by_cases h1 : env.fileExists = true
  · by_cases h2 : trimws env.fileContent = []
    · simp [mainRun, h1, h2]
    · by_cases h3 : env.cppcheckPresent = true
      · by_cases h4 : env.gccPresent = true
        · by_cases h5 : env.ollamaAvailable = true
          · by_cases h6 : env.ollamaExit = 0
            · have h7 : extract_fixed_code env.ollamaStdout = none := by
                rcases h with hd | hd | hd | hd | hd | hd | hd
                · exact absurd h1 (by simp [hd])
                · exact absurd hd h2
                · exact absurd h3 (by simp [hd])
                · exact absurd h4 (by simp [hd])
                · exact absurd h5 (by simp [hd])
                · exact absurd h6 hd
                · exact hd
              simp [mainRun, h1, h2, h3, h4, h5, run_cppcheck,
                run_gcc_syntax_check, send_to_mistral, runWithTimeout,
                ollamaRunTimeout, h6, h7]
            · simp [mainRun, h1, h2, h3, h4, h5, run_cppcheck,
                run_gcc_syntax_check, send_to_mistral, runWithTimeout,
                ollamaRunTimeout, h6]
          · have h5' : env.ollamaAvailable = false := by simpa using h5
            simp [mainRun, h1, h2, h3, h4, run_cppcheck, run_gcc_syntax_check,
              send_to_mistral, h5']
        · have h4' : env.gccPresent = false := by simpa using h4
          simp [mainRun, h1, h2, h3, h4', run_cppcheck, run_gcc_syntax_check]
      · have h3' : env.cppcheckPresent = false := by simpa using h3
        simp [mainRun, h1, h2, h3', run_cppcheck]
  · have h1' : env.fileExists = false := by simpa using h1
    simp [mainRun, h1']

/-- Once the analysis phase has completed and the model service is up, the
repair request is always issued; the diagnostics' contents play no role. -/
theorem mainRun_requestSent (env : Env) (h1 : env.fileExists = true)
    (h2 : trimws env.fileContent ≠ []) (h3 : env.cppcheckPresent = true)
    (h4 : env.gccPresent = true) (h5 : env.ollamaAvailable = true) :
    (mainRun env).requestSent = true := by
  rcases hs : send_to_mistral env.ollamaAvailable env.ollamaDuration
      env.ollamaExit env.ollamaStdout env.ollamaStderr with e | resp <;>
    rw [h5] at hs
  · simp [mainRun, h1, h2, h3, h4, run_cppcheck, run_gcc_syntax_check, hs, h5]
  · rcases hx : extract_fixed_code resp with _ | code <;>
      simp [mainRun, h1, h2, h3, h4, run_cppcheck, run_gcc_syntax_check, hs, hx, h5]

/-! ## Claim theorems -/

/-- C1 counterexample: the claim says any embedded `main` definition is
removed from the extraction result, but extracting a response whose tagged
block is exactly a `main` definition returns that `main` definition
verbatim (only whitespace-trimmed). -/
theorem C1_entry_point_not_removed_counterexample :
    extract_fixed_code ("```c\nint main() \x7b return 0; \x7d\n```".toList) =
      some ("int main() \x7b return 0; \x7d".toList) := by
  decide

/-- C1 (amended): extraction of a tagged block returns the block's contents
verbatim apart from whitespace trimming; no embedded program entry-point
definition is removed, so a `main` function in the model's code reaches
validation unchanged. -/
theorem C1_extraction_trims_only (a b c : List Char) (ha : bt ∉ a) (hb : bt ∉ b)
    (htr : trimws b ≠ []) :
    extract_fixed_code (a ++ (taggedOpenPat ++ (b ++ (closeFence ++ c)))) =
      some (trimws b) :=
  extract_of_tagged_match (matchFence_tagged_direct a b c ha hb) htr

/-- C1 witness: a tagged block containing a full `main` definition is
returned with that `main` definition intact. -/
theorem C1_extraction_trims_only_witness :
    extract_fixed_code ("Fixed code follows.\n".toList ++ (taggedOpenPat ++
      ("\nint add(int a, int b) \x7b return a + b; \x7d\nint main() \x7b return 0; \x7d\n".toList ++
        (closeFence ++ " Done.".toList)))) =
      some (trimws "\nint add(int a, int b) \x7b return a + b; \x7d\nint main() \x7b return 0; \x7d\n".toList) :=
  C1_extraction_trims_only _ _ _ (by decide) (by decide) (by decide)

/-- C2: the `ollama run` invocation passes no timeout, so there is no
enforced upper bound on its duration: a call taking arbitrarily longer than
the two minutes announced by the dead `TimeoutExpired` handler still
completes normally and returns the model's stdout instead of aborting. -/
theorem C2_no_timeout_enforced :
    ollamaRunTimeout = none ∧
      ∀ (d : Nat) (out err : List Char), 120 < d →
        send_to_mistral true d 0 out err = Except.ok out := by
  refine ⟨rfl, fun d out err hd => ?_⟩
  simp [send_to_mistral, runWithTimeout, ollamaRunTimeout]

/-- C2 witness: a 121-second model call (past the claimed 2-minute bound)
still returns normally. -/
theorem C2_no_timeout_enforced_witness :
    send_to_mistral true 121 0 ("fix".toList) [] = Except.ok ("fix".toList) :=
  C2_no_timeout_enforced.2 121 ("fix".toList) [] (by decide)

/-- C3: validation outcomes form the three-way taxonomy: non-zero compiler
exit gives `CompileFailed` carrying the compiler's stderr (non-empty when
the compiler produced diagnostics, and distinguishable from `TestsFailed`);
on successful build a non-zero run exit gives `TestsFailed` and a zero run
exit gives `TestsPassed`. -/
theorem C3_validation_taxonomy (cExit : Int) (cErr : List Char) (rExit : Int)
    (rErr : List Char) :
    (cExit ≠ 0 →
      compile_and_run_tests cExit cErr rExit rErr = ValidationResult.CompileFailed cErr) ∧
    (cExit ≠ 0 → cErr ≠ [] →
      ∃ d, compile_and_run_tests cExit cErr rExit rErr = ValidationResult.CompileFailed d ∧
        d ≠ []) ∧
    (cExit = 0 → rExit ≠ 0 →
      compile_and_run_tests cExit cErr rExit rErr = ValidationResult.TestsFailed rErr) ∧
    (cExit = 0 → rExit = 0 →
      compile_and_run_tests cExit cErr rExit rErr = ValidationResult.TestsPassed) ∧
    (∀ d1 d2, ValidationResult.CompileFailed d1 ≠ ValidationResult.TestsFailed d2) := by
  refine ⟨fun hc => ?_, fun hc hne => ?_, fun hc hr => ?_, fun hc hr => ?_,
    fun d1 d2 h => ?_⟩
  · simp [compile_and_run_tests, hc]
  · exact ⟨cErr, by simp [compile_and_run_tests, hc], hne⟩
  · simp [compile_and_run_tests, hc, hr]
  · simp [compile_and_run_tests, hc, hr]
  · cases h

/-- C3 witness: a failing compile with diagnostic text `x` is classified
`CompileFailed` carrying that text. -/
theorem C3_validation_taxonomy_witness :
    compile_and_run_tests 1 ("error: expected ;".toList) 0 [] =
      ValidationResult.CompileFailed ("error: expected ;".toList) ∧
    compile_and_run_tests 0 [] 2 ("assertion failed".toList) =
      ValidationResult.TestsFailed ("assertion failed".toList) ∧
    compile_and_run_tests 0 [] 0 [] = ValidationResult.TestsPassed :=
  ⟨(C3_validation_taxonomy 1 ("error: expected ;".toList) 0 []).1 (by decide),
    (C3_validation_taxonomy 0 [] 2 ("assertion failed".toList)).2.2.1 rfl (by decide),
    (C3_validation_taxonomy 0 [] 0 []).2.2.2.1 rfl rfl⟩

/-- C4: extraction fails exactly when no pattern yields non-whitespace
content; on such a response the run aborts with exit 1 before any test
synthesis or validation, and a successful extraction is never empty, so
compilation is never attempted on an empty or missing fix. -/
theorem C4_extraction_failure_aborts :
    (∀ s, extract_fixed_code s = none ↔
      ∀ p ∈ patterns, ∀ c, matchFence p s = some c → trimws c = []) ∧
    (∀ env : Env, extract_fixed_code env.ollamaStdout = none →
      (mainRun env).exitCode = 1 ∧ (mainRun env).validationAttempted = false ∧
        (mainRun env).summary = none) ∧
    (∀ s code, extract_fixed_code s = some code → code ≠ []) := by
  refine ⟨fun s => tryPatterns_eq_none_iff patterns s, fun env h => ?_,
    fun s code h => tryPatterns_some_ne_nil patterns s code h⟩
  exact mainRun_fatal env (Or.inr (Or.inr (Or.inr (Or.inr (Or.inr (Or.inr h))))))

/-- C4 witness: with a response containing no fenced block, the run exits 1
and validation is never attempted. -/
theorem C4_extraction_failure_aborts_witness :
    (mainRun { fileExists := true, fileContent := "int x;".toList,
               cppcheckPresent := true, cppcheckExit := 0, cppcheckStderr := [],
               gccPresent := true, gccExit := 0, gccStderr := [],
               ollamaAvailable := true, ollamaDuration := 5, ollamaExit := 0,
               ollamaStdout := "I cannot help with that.".toList, ollamaStderr := [],
               compileExit := 0, compileStderr := [], runExit := 0,
               runStderr := [] }).exitCode = 1 ∧
    (mainRun { fileExists := true, fileContent := "int x;".toList,
               cppcheckPresent := true, cppcheckExit := 0, cppcheckStderr := [],
               gccPresent := true, gccExit := 0, gccStderr := [],
               ollamaAvailable := true, ollamaDuration := 5, ollamaExit := 0,
               ollamaStdout := "I cannot help with that.".toList, ollamaStderr := [],
               compileExit := 0, compileStderr := [], runExit := 0,
               runStderr := [] }).validationAttempted = false ∧
    (mainRun { fileExists := true, fileContent := "int x;".toList,
               cppcheckPresent := true, cppcheckExit := 0, cppcheckStderr := [],
               gccPresent := true, gccExit := 0, gccStderr := [],
               ollamaAvailable := true, ollamaDuration := 5, ollamaExit := 0,
               ollamaStdout := "I cannot help with that.".toList, ollamaStderr := [],
               compileExit := 0, compileStderr := [], runExit := 0,
               runStderr := [] }).summary = none :=
  C4_extraction_failure_aborts.2.1 _ (by decide)

/-- C5: pattern priority: in a response containing an untagged fenced block
(with non-whitespace content `u`) followed by a language-tagged fenced
block (with non-whitespace content `b`), extraction returns the tagged
block's contents, trimmed. -/
theorem C5_tagged_block_priority (a u m b c : List Char) (ha : bt ∉ a)
    (hu : bt ∉ u) (hm : bt ∉ m) (hmc : m.head? ≠ some 'c') (hb : bt ∉ b)
    (htru : trimws u ≠ []) (htrb : trimws b ≠ []) :
    extract_fixed_code
      (a ++ (untaggedOpenPat ++ (u ++ (closeFence ++
        (m ++ (taggedOpenPat ++ (b ++ (closeFence ++ c)))))))) =
      some (trimws b) :=
  extract_of_tagged_match (matchFence_tagged_after_untagged a u m b c ha hu hm hmc hb) htrb

/-- C5 witness: the untagged block comes first in the response text, yet
the tagged block's contents are what gets extracted. -/
theorem C5_tagged_block_priority_witness :
    extract_fixed_code
      ("Try this: ".toList ++ (untaggedOpenPat ++ ("int sub(int a, int b);\n".toList ++
        (closeFence ++ (" or better: ".toList ++ (taggedOpenPat ++
          ("int add(int a, int b) \x7b return a + b; \x7d\n".toList ++
            (closeFence ++ " Hope this helps.".toList)))))))) =
      some (trimws "int add(int a, int b) \x7b return a + b; \x7d\n".toList) :=
  C5_tagged_block_priority _ _ _ _ _ (by decide) (by decide) (by decide)
    (by decide) (by decide) (by decide) (by decide)

/-- C6: in both analysis tools, a non-zero exit code is not an error: the
captured stderr text is returned as the diagnostic string for every exit
code; only a missing tool executable exits the process with status 1. -/
theorem C6_analysis_nonzero_exit_not_error (x : Int) (s : List Char) :
    run_cppcheck true x s = Except.ok s ∧
    run_cppcheck false x s = Except.error 1 ∧
    run_gcc_syntax_check true x s = Except.ok s ∧
    run_gcc_syntax_check false x s = Except.error 1 :=
  ⟨rfl, rfl, rfl, rfl⟩

/-- C7: a run with no fatal condition always completes with exit status 0
and prints the full summary (analysis-issues flag, fix generated, test
outcome) — also when compilation or the tests fail; every fatal condition
exits 1 with no summary. -/
theorem C7_completed_run_exits_zero :
    (∀ env : Env, ¬ fatalCond env →
      mainRun env = ⟨0, true, true,
        some ⟨!env.cppcheckStderr.isEmpty || !env.gccStderr.isEmpty, true,
          testsOk (compile_and_run_tests env.compileExit env.compileStderr
            env.runExit env.runStderr)⟩⟩) ∧
    (∀ env : Env, fatalCond env →
      (mainRun env).exitCode = 1 ∧ (mainRun env).summary = none) :=
  ⟨mainRun_success, fun env h => ⟨(mainRun_fatal env h).1, (mainRun_fatal env h).2.2⟩⟩

/-- C7 witness: a run whose test compilation fails (non-zero compiler exit
on the harness build) still exits 0, reporting the failed tests in the
summary. -/
theorem C7_completed_run_exits_zero_witness :
    mainRun { fileExists := true, fileContent := "int x;".toList,
              cppcheckPresent := true, cppcheckExit := 0, cppcheckStderr := [],
              gccPresent := true, gccExit := 0, gccStderr := [],
              ollamaAvailable := true, ollamaDuration := 5, ollamaExit := 0,
              ollamaStdout := "```c\nint add(int a, int b) \x7b return a + b; \x7d\n```".toList,
              ollamaStderr := [],
              compileExit := 1, compileStderr := "duplicate symbol".toList,
              runExit := 0, runStderr := [] } =
      ⟨0, true, true, some ⟨false, true, false⟩⟩ :=
  (C7_completed_run_exits_zero.1 _ (by decide)).trans (by decide)

/-- C8: once the diagnostics are obtained (and the service is reachable),
the repair request is always sent — in particular when both diagnostic
strings are empty; there is no short-circuit skip on a clean analysis. -/
theorem C8_clean_analysis_still_requests (env : Env) (h1 : env.fileExists = true)
    (h2 : trimws env.fileContent ≠ []) (h3 : env.cppcheckPresent = true)
    (h4 : env.gccPresent = true) (h5 : env.ollamaAvailable = true)
    (hcpp : env.cppcheckStderr = []) (hgcc : env.gccStderr = []) :
    (mainRun env).requestSent = true :=
  mainRun_requestSent env h1 h2 h3 h4 h5

/-- C8 witness: a clean analysis (both diagnostics empty) still sends the
repair request. -/
theorem C8_clean_analysis_still_requests_witness :
    (mainRun { fileExists := true, fileContent := "int x;".toList,
               cppcheckPresent := true, cppcheckExit := 0, cppcheckStderr := [],
               gccPresent := true, gccExit := 0, gccStderr := [],
               ollamaAvailable := true, ollamaDuration := 5, ollamaExit := 0,
               ollamaStdout := "```c\nint add(int a, int b) \x7b return a + b; \x7d\n```".toList,
               ollamaStderr := [],
               compileExit := 0, compileStderr := [], runExit := 0,
               runStderr := [] }).requestSent = true :=
  C8_clean_analysis_still_requests _ (by decide) (by decide) (by decide)
    (by decide) (by decide) (by decide) (by decide)

set_option maxRecDepth 4000 in
/-- C9: the test synthesizer takes no inputs and its output is this fixed
byte sequence, so any two invocations under identical configuration produce
byte-identical test source. -/
theorem C9_test_synthesis_constant_bytes :
    generate_test_file =
      ("#include <assert.h>\n// Include only specific functions, not the entire file\nint add(int a, int b); // Forward declaration\n\nint test_main() \x7b\n    assert(add(2, 3) == 5);\n    assert(add(-1, 1) == 0);\n    return 0;\n\x7d\n\nint main() \x7b return test_main(); \x7d").toList := by
  decide

/-- C10: a response whose only fenced block is tagged other than exactly
`c`+newline is extracted by the catch-all pattern, whole: the returned code
is the trimmed region between the fences, which begins with the language
tag's characters themselves (e.g. `cpp...` or `c `+carriage-return). -/
theorem C10_other_tag_catch_all :
    (∀ a w : List Char, bt ∉ a → bt ∉ w → w ≠ [] → w.head? ≠ some '\n' →
      startsWith ['c', '\n'] (w ++ closeFence) = false → trimws w ≠ [] →
      extract_fixed_code (a ++ (closeFence ++ (w ++ closeFence))) =
        some (trimws w)) ∧
    extract_fixed_code
        ("Here is the fix:\n```cpp\nint add(int a, int b) \x7b return a + b; \x7d\n```".toList) =
      some ("cpp\nint add(int a, int b) \x7b return a + b; \x7d".toList) ∧
    startsWith ("cpp".toList)
        ("cpp\nint add(int a, int b) \x7b return a + b; \x7d".toList) = true ∧
    extract_fixed_code ("```c \nint sub(int a, int b);\n```".toList) =
      some ("c \nint sub(int a, int b);".toList) := by
  refine ⟨extract_other_tag, ?_, ?_, ?_⟩
  · decide
  · decide
  · decide

/-- C10 witness: instantiating the general statement on a `cpp`-tagged
block: the whole region, language tag included, is returned trimmed. -/
theorem C10_other_tag_catch_all_witness :
    extract_fixed_code ("See below.\n".toList ++ (closeFence ++
      ("cpp\nint mul(int a, int b) \x7b return a * b; \x7d\n".toList ++ closeFence))) =
      some (trimws "cpp\nint mul(int a, int b) \x7b return a * b; \x7d\n".toList) :=
  C10_other_tag_catch_all.1 _ _ (by decide) (by decide) (by decide) (by decide)
    (by decide) (by decide)

end AutonomousDebugger
